import Mathlib

/-! Verification of the terminus IPv4 subnet calculator.

The development embeds the two core units of the repository:
the subnet parameter derivation (`iface.GetParams`, `iface.GetAddr`,
`findInterface` from iface/iface.go) and the address resolution
(`determineIP` from cmd/terminus/main.go), together with the parts of
their dependencies that decide their behaviour (the iplib v1.0.3 netblock
arithmetic and the Go standard library address parsing), which are
modelled from the specification and the documented behaviour of those
libraries since their sources are not part of the repository.

IPv4 addresses are 32-bit values embedded as `Nat` with explicit
`% 2 ^ 32` where Go performs 32-bit arithmetic.  IPv6 addresses are
128-bit values.  Fallible operations return `Except`/`Option`.
-/

namespace Terminus

/-- Modelled from the spec: the contiguous subnet mask for a given number
of leading one bits (net.CIDRMask); all ones in the top `p` bits of a
32-bit word, zero elsewhere. -/
def mask32 (p : Nat) : Nat := 2 ^ 32 - 2 ^ (32 - p)

/-- Modelled from the spec: the wildcard mask, `wildcard = NOT mask`
(iplib Net.Wildcard flips every byte of the mask, which on a 32-bit
value is subtraction from the all-ones word). -/
def wildcard32 (p : Nat) : Nat := (2 ^ 32 - 1) - mask32 p

/-- Modelled from the spec: `network = address AND mask`
(iplib NewNet masks the given address; Net.NetworkAddress returns it). -/
def networkAddr (ip p : Nat) : Nat := ip &&& mask32 p

/-- Modelled from the spec: `broadcast = network OR (NOT mask)`
(iplib Net.BroadcastAddress). -/
def broadcastAddr (ip p : Nat) : Nat := networkAddr ip p ||| wildcard32 p

/-- Modelled from the spec: iplib Net.FirstAddress; for prefix length 31
or 32 (ones + 2 > bits) the network address itself, otherwise the
successor of the network address. -/
def firstAddr (ip p : Nat) : Nat :=
  if 32 < p + 2 then networkAddr ip p else (networkAddr ip p + 1) % 2 ^ 32

/-- Modelled from the spec: iplib Net.LastAddress; for prefix length 31
or 32 the broadcast address itself, otherwise its predecessor. -/
def lastAddr (ip p : Nat) : Nat :=
  if 32 < p + 2 then broadcastAddr ip p else broadcastAddr ip p - 1

/-- Modelled from the spec: iplib Net.Count4, a uint32.  It returns 1 for
a /32, 2 for a /31 (RFC 3021 handling) and otherwise the block size minus
the two reserved addresses, reduced modulo 2 ^ 32 as the result has Go
type uint32. -/
def count4 (p : Nat) : Nat :=
  if 32 - p = 0 then 1
  else if 32 - p = 1 then 2
  else (2 ^ (32 - p) - 2) % 2 ^ 32

/-- Modelled from the spec: iplib Net.Count for an IPv4 netblock, the
number of usable addresses, identical to Count4. -/
def countUsable (p : Nat) : Nat := count4 p

/-- The "size" field computed by GetParams: `int(n.Count4() + 2)` with the
addition performed in uint32 (hence modulo 2 ^ 32), then overridden to 1
for a /32 and to 2 for a /31 (iface.go lines 95-100). -/
def sizeField (p : Nat) : Nat :=
  if p = 32 then 1
  else if p = 31 then 2
  else (count4 p + 2) % 2 ^ 32

/-- An IP address as handed around by the Go net package: either a 4-byte
IPv4 value or a 16-byte IPv6 value. -/
inductive IPAddr where
  | v4 (n : Nat)
  | v6 (n : Nat)
deriving DecidableEq, Repr

/-- Modelled from the spec: net.IP.To4; a 4-byte address is returned
unchanged and a 16-byte address is converted exactly when it is an
IPv4-mapped IPv6 address (ten zero bytes, then 0xff 0xff, then the
4-byte value). -/
def to4 : IPAddr → Option Nat
  | IPAddr.v4 n => some n
  | IPAddr.v6 n => if n / 2 ^ 32 = 0xffff then some (n % 2 ^ 32) else none

/-- Modelled from the spec: net.IP.Equal; equal if both are the same
length and value, or if one is the 4-byte and the other the 16-byte
(IPv4-mapped) form of the same IPv4 address. -/
def ipEqual : IPAddr → IPAddr → Bool
  | IPAddr.v4 a, IPAddr.v4 b => a == b
  | IPAddr.v4 a, IPAddr.v6 b => to4 (IPAddr.v6 b) == some a
  | IPAddr.v6 a, IPAddr.v4 b => to4 (IPAddr.v6 a) == some b
  | IPAddr.v6 a, IPAddr.v6 b => a == b

/-- Dot-decimal rendering of a 32-bit IPv4 value, as produced by
net.IP.String for a 4-byte address or an IPv4-mapped 16-byte address. -/
def ipv4String (ip : Nat) : String :=
  toString (ip / 16777216 % 256) ++ "." ++ toString (ip / 65536 % 256) ++ "."
    ++ toString (ip / 256 % 256) ++ "." ++ toString (ip % 256)

/-- The part of a string before the first slash, which is what
`strings.SplitN(name, "/", 2)[0]` yields in GetParams (iface.go line 82). -/
def splitFirst (s : String) : String :=
  String.mk (s.data.takeWhile (fun c => c != '/'))

/-- One address bound to a network interface, as returned by the platform
address enumeration: the address together with its mask, the mask given
as (ones, bits) as produced by net.IPMask.Size. -/
structure IfAddr where
  ip : IPAddr
  maskOnes : Nat
  maskBits : Nat
deriving DecidableEq, Repr

/-- A local network interface: its name and its bound addresses; reading
the addresses can fail with an OS error (net.Interface.Addrs). -/
structure NetIface where
  name : String
  addrs : Except Unit (List IfAddr)
deriving Repr

/-- The transient operating system state consulted by the reverse name
lookup: the interface enumeration, which can fail (net.Interfaces). -/
structure OsEnv where
  interfaces : Except Unit (List NetIface)
deriving Repr

/-- The loop of findInterface (iface.go lines 110-122): scan the
interfaces in order; an interface whose addresses cannot be read is
skipped (continue); the first interface with an address equal to `ip`
gives its name; otherwise the empty string. -/
def findInList (ip : IPAddr) : List NetIface → String
  | [] => ""
  | i :: rest =>
    match i.addrs with
    | Except.error _ => findInList ip rest
    | Except.ok as =>
      if as.any (fun a => ipEqual ip a.ip) then i.name else findInList ip rest

/-- findInterface (iface.go lines 105-124): if the interface enumeration
fails the empty string is returned, otherwise the scan over the list. -/
def findInterface (env : OsEnv) (ip : IPAddr) : String :=
  match env.interfaces with
  | Except.error _ => ""
  | Except.ok ifs => findInList ip ifs

/-- A value stored in the map returned by GetParams: a net.IP, a string,
or a Go int. -/
inductive FieldVal where
  | addr (n : Nat)
  | str (s : String)
  | int (z : Int)
deriving DecidableEq, Repr

/-- GetParams (iface.go lines 74-103) for an IPv4 address `ip` and a
contiguous mask with `p` leading ones (non-contiguous masks make
net.IPMask.Size return (0, 0) and behave as p = 0, except for the netmask
field; the claims under verification only concern contiguous masks).
The returned Go map is embedded as an association list keyed by the
field-name constants; the name field is the argument `name` unless
`ip.String()` equals the part of `name` before the first slash, in which
case it is the reverse interface lookup. -/
def getParams (env : OsEnv) (name : String) (ip : Nat) (p : Nat) :
    List (String × FieldVal) :=
  let nameVal :=
    if ipv4String ip == splitFirst name then findInterface env (IPAddr.v4 ip)
    else name
  [("broadcast", FieldVal.addr (broadcastAddr ip p)),
   ("first", FieldVal.addr (firstAddr ip p)),
   ("name", FieldVal.str nameVal),
   ("network", FieldVal.addr (networkAddr ip p)),
   ("ip", FieldVal.addr ip),
   ("last", FieldVal.addr (lastAddr ip p)),
   ("netmask", FieldVal.addr (mask32 p)),
   ("prefix", FieldVal.int p),
   ("size", FieldVal.int (sizeField p)),
   ("usable", FieldVal.int (countUsable p)),
   ("version", FieldVal.int 4),
   ("wildcard", FieldVal.addr (wildcard32 p))]

/-- Modelled from the spec: the decimal scanner dtoi of the Go net
package, capped at 0xFFFFFF; returns the value, the number of characters
consumed, the success flag and the remaining characters. -/
def dtoiAux : List Char → Nat → Nat → Nat × Nat × Bool × List Char
  | [], acc, i => (acc, i, i != 0, [])
  | c :: rest, acc, i =>
    if c.isDigit then
      let acc2 := acc * 10 + (c.toNat - 48)
      if 16777215 ≤ acc2 then (16777215, i, false, c :: rest)
      else dtoiAux rest acc2 (i + 1)
    else (acc, i, i != 0, c :: rest)

/-- Modelled from the spec: dtoi applied from the start of a string. -/
def dtoiGo (s : List Char) : Nat × Nat × Bool × List Char := dtoiAux s 0 0

/-- Hexadecimal value of a character, if any. -/
def hexVal (c : Char) : Option Nat :=
  if '0' ≤ c ∧ c ≤ '9' then some (c.toNat - 48)
  else if 'a' ≤ c ∧ c ≤ 'f' then some (c.toNat - 87)
  else if 'A' ≤ c ∧ c ≤ 'F' then some (c.toNat - 55)
  else none

/-- Modelled from the spec: the hexadecimal scanner xtoi of the Go net
package, capped at 0xFFFFFF. -/
def xtoiAux : List Char → Nat → Nat → Nat × Nat × Bool × List Char
  | [], acc, i => (acc, i, i != 0, [])
  | c :: rest, acc, i =>
    match hexVal c with
    | some v =>
      let acc2 := acc * 16 + v
      if 16777215 ≤ acc2 then (0, i, false, c :: rest)
      else xtoiAux rest acc2 (i + 1)
    | none => (acc, i, i != 0, c :: rest)

/-- Modelled from the spec: xtoi applied from the start of a string. -/
def xtoiGo (s : List Char) : Nat × Nat × Bool × List Char := xtoiAux s 0 0

/-- Modelled from the spec: the field loop of the Go net parseIPv4; four
decimal fields separated by dots, each at most 255, non-zero fields must
not have a leading zero, and the whole string must be consumed. -/
def parseV4Aux : Nat → List Char → Nat → Bool → Option Nat
  | 0, s, acc, _ => if s.isEmpty then some acc else none
  | k + 1, s, acc, isFirst =>
    let fieldChars : Option (List Char) :=
      if isFirst then some s
      else
        match s with
        | '.' :: r => some r
        | _ => none
    match fieldChars with
    | none => none
    | some r =>
      match dtoiGo r with
      | (n, cnt, true, rest) =>
        if 255 < n then none
        else if 1 < cnt ∧ r.head? = some '0' then none
        else parseV4Aux k rest (acc * 256 + n) false
      | (_, _, false, _) => none

/-- Modelled from the spec: Go net parseIPv4, giving the 32-bit value. -/
def parseV4Go (s : List Char) : Option Nat := parseV4Aux 4 s 0 true

/-- Modelled from the spec: the main loop of Go net parseIPv6.  The state
is the list of bytes produced so far and the position of the ellipsis if
one was seen; each step parses a 16-bit hexadecimal group (or a trailing
IPv4 address) and the separating colons.  The fuel only bounds the at
most eight groups. -/
def parseV6Loop : Nat → List Char → List Nat → Option Nat →
    Option (List Nat × Option Nat × List Char)
  | 0, _, _, _ => none
  | fuel + 1, s, bytes, ell =>
    if 16 ≤ bytes.length then some (bytes, ell, s)
    else
      match xtoiGo s with
      | (n, _, true, rest) =>
        if 65535 < n then none
        else if rest.head? = some '.' then
          if (ell = none ∧ bytes.length ≠ 12) ∨ 16 < bytes.length + 4 then none
          else
            match parseV4Go s with
            | none => none
            | some v =>
              some (bytes ++ [v / 16777216, v / 65536 % 256, v / 256 % 256, v % 256],
                ell, [])
        else
          let bytes2 := bytes ++ [n / 256, n % 256]
          match rest with
          | [] => some (bytes2, ell, [])
          | ':' :: r2 =>
            match r2 with
            | [] => none
            | ':' :: r3 =>
              if ell.isSome then none
              else if r3.isEmpty then some (bytes2, some bytes2.length, [])
              else parseV6Loop fuel r3 bytes2 (some bytes2.length)
            | _ => parseV6Loop fuel r2 bytes2 ell
          | _ => none
      | (_, _, false, _) => none

/-- Expansion of the ellipsis: insert the missing zero bytes at the
recorded position. -/
def expandAt (bytes : List Nat) (e : Nat) : List Nat :=
  bytes.take e ++ List.replicate (16 - bytes.length) 0 ++ bytes.drop e

/-- Modelled from the spec: the tail of Go net parseIPv6 after the main
loop; the whole string must be consumed, a short result needs an ellipsis
to expand, and a full result must not also carry an ellipsis. -/
def finishV6 (r : Option (List Nat × Option Nat × List Char)) :
    Option (List Nat) :=
  match r with
  | none => none
  | some (bytes, ell, rest) =>
    if ¬ rest.isEmpty then none
    else if bytes.length < 16 then
      match ell with
      | none => none
      | some e => some (expandAt bytes e)
    else
      match ell with
      | some _ => none
      | none => some bytes

/-- Modelled from the spec: Go net parseIPv6, giving the 16 bytes; a
leading double colon is handled before the main loop. -/
def parseV6Go (s0 : List Char) : Option (List Nat) :=
  match s0 with
  | ':' :: ':' :: r =>
    if r.isEmpty then some (List.replicate 16 0)
    else finishV6 (parseV6Loop 9 r [] (some 0))
  | _ => finishV6 (parseV6Loop 9 s0 [] none)

/-- Big-endian byte list to natural number. -/
def bytesToNat (bs : List Nat) : Nat := bs.foldl (fun a b => a * 256 + b) 0

/-- Modelled from the spec: net.ParseIP (Go 1.19, backed by
netip.ParseAddr); the first dot, colon or percent sign decides the
branch: a dot selects the IPv4 parser, a colon the IPv6 parser, a percent
sign (a zone) and the absence of any of them are failures. -/
def parseIPGo (s : String) : Option IPAddr :=
  match s.data.find? (fun c => c == '.' || c == ':' || c == '%') with
  | some '.' => (parseV4Go s.data).map IPAddr.v4
  | some ':' => (parseV6Go s.data).map (fun bs => IPAddr.v6 (bytesToNat bs))
  | _ => none

/-- Split a character list at the first slash, if any. -/
def breakSlash : List Char → Option (List Char × List Char)
  | [] => none
  | c :: rest =>
    if c = '/' then some ([], rest)
    else
      match breakSlash rest with
      | none => none
      | some (a, b) => some (c :: a, b)

/-- Modelled from the spec: net.ParseCIDR; the part before the first
slash is parsed as an IPv4 then as an IPv6 address, the part after it as
a decimal prefix length bounded by the address width; the unmasked
address, the ones count and the mask width are returned. -/
def parseCIDRGo (s : String) : Option (IPAddr × Nat × Nat) :=
  match breakSlash s.data with
  | none => none
  | some (addrChars, maskChars) =>
    let ipAndLen : Option (IPAddr × Nat) :=
      match parseV4Go addrChars with
      | some n => some (IPAddr.v4 n, 4)
      | none =>
        match parseV6Go addrChars with
        | some bs => some (IPAddr.v6 (bytesToNat bs), 16)
        | none => none
    match ipAndLen with
    | none => none
    | some (ip, iplen) =>
      match dtoiGo maskChars with
      | (n, _, true, rest) =>
        if rest.isEmpty ∧ n ≤ 8 * iplen then some (ip, n, 8 * iplen) else none
      | (_, _, false, _) => none

/-- Modelled from the spec: net.IP.DefaultMask followed by Size; the
historical class-based default for an IPv4 (or IPv4-mapped) address:
first octet below 128 gives 8, below 192 gives 16, and everything else
24; a non-IPv4 address has a nil default mask whose Size is (0, 0). -/
def defaultMaskSize (ip : IPAddr) : Nat :=
  match to4 ip with
  | none => 0
  | some n =>
    if n / 16777216 < 128 then 8
    else if n / 16777216 < 192 then 16
    else 24

/-- Modelled from the spec: net.InterfaceByName; the interface with the
given name, otherwise an InterfaceNotFound error naming the missing
interface (the message form is pinned by the repository test
iface_test.go, TestGetAddrInvalidName). -/
def interfaceByName (ifs : List NetIface) (name : String) :
    Except String NetIface :=
  match ifs.find? (fun i => i.name == name) with
  | some i => Except.ok i
  | none => Except.error ("invalid network interface name: " ++ name)

/-- The selection loop of GetAddr (iface.go lines 63-69): the first bound
address whose mask is 32 bits wide (an IPv4 configuration) is taken;
other addresses are skipped. -/
def firstV4Addr : List IfAddr → Option IfAddr
  | [] => none
  | a :: rest => if a.maskBits == 32 then some a else firstV4Addr rest

/-- GetAddr (iface.go lines 54-71): look up the interface by name, read
its addresses and return the first IPv4 address together with the ones
count of its mask (the prefix length of iplib.NewNet).  Failures: the
lookup error, a placeholder for an address-enumeration OS error (the code
forwards errors.Unwrap of it), and "no IP address" when no IPv4 address
is bound. -/
def getAddr (ifs : List NetIface) (name : String) :
    Except String (IPAddr × Nat) :=
  match interfaceByName ifs name with
  | Except.error e => Except.error e
  | Except.ok i =>
    match i.addrs with
    | Except.error _ => Except.error "address enumeration failed"
    | Except.ok as =>
      match firstV4Addr as with
      | some a => Except.ok (a.ip, a.maskOnes)
      | none => Except.error "no IP address"

/-- determineIP (cmd/terminus/main.go lines 172-190): first try ParseIP
and use the class-based default mask size, then ParseCIDR and use the
explicit mask size, then GetAddr on the argument as an interface name. -/
def determineIP (ifs : List NetIface) (arg : String) :
    Except String (IPAddr × Nat) :=
  match parseIPGo arg with
  | some ip => Except.ok (ip, defaultMaskSize ip)
  | none =>
    match parseCIDRGo arg with
    | some (ip, ones, _) => Except.ok (ip, ones)
    | none => getAddr ifs arg

/-- Does the interface own an address equal to `ip` (readable addresses
only)?  This is the predicate the findInterface loop searches with. -/
def ifaceHasIPAddr (ip : IPAddr) (i : NetIface) : Bool :=
  match i.addrs with
  | Except.error _ => false
  | Except.ok as => as.any (fun a => ipEqual ip a.ip)

theorem lookup_cons (a k : String) (b : FieldVal) (l : List (String × FieldVal)) :
    List.lookup a ((k, b) :: l) = if a == k then some b else List.lookup a l := by
  cases h : a == k <;> simp [List.lookup, h]

theorem getParams_lookup_size (env : OsEnv) (name : String) (ip p : Nat) :
    (getParams env name ip p).lookup "size" = some (FieldVal.int (sizeField p)) := rfl

theorem getParams_lookup_usable (env : OsEnv) (name : String) (ip p : Nat) :
    (getParams env name ip p).lookup "usable" =
      some (FieldVal.int (countUsable p)) := rfl

theorem getParams_lookup_first (env : OsEnv) (name : String) (ip p : Nat) :
    (getParams env name ip p).lookup "first" =
      some (FieldVal.addr (firstAddr ip p)) := rfl

theorem getParams_lookup_last (env : OsEnv) (name : String) (ip p : Nat) :
    (getParams env name ip p).lookup "last" =
      some (FieldVal.addr (lastAddr ip p)) := rfl

theorem getParams_lookup_network (env : OsEnv) (name : String) (ip p : Nat) :
    (getParams env name ip p).lookup "network" =
      some (FieldVal.addr (networkAddr ip p)) := rfl

theorem getParams_lookup_broadcast (env : OsEnv) (name : String) (ip p : Nat) :
    (getParams env name ip p).lookup "broadcast" =
      some (FieldVal.addr (broadcastAddr ip p)) := rfl

theorem getParams_lookup_name (env : OsEnv) (name : String) (ip p : Nat) :
    (getParams env name ip p).lookup "name" =
      some (FieldVal.str (if ipv4String ip == splitFirst name then
        findInterface env (IPAddr.v4 ip) else name)) := rfl

theorem mask_land_wild (p : Nat) (hp : p ≤ 32) :
    mask32 p &&& wildcard32 p = 0 := by
  interval_cases p <;> decide

theorem mask_lor_wild (p : Nat) (hp : p ≤ 32) :
    mask32 p ||| wildcard32 p = 2 ^ 32 - 1 := by
  interval_cases p <;> decide

theorem network_land_wild (ip p : Nat) (hp : p ≤ 32) :
    networkAddr ip p &&& wildcard32 p = 0 := by
  unfold networkAddr
  rw [Nat.and_assoc, mask_land_wild p hp, Nat.and_zero]

theorem networkAddr_full (ip : Nat) (hip : ip < 2 ^ 32) : networkAddr ip 32 = ip := by
  have h1 : networkAddr ip 32 = ip &&& (2 ^ 32 - 1) := rfl
  rw [h1, Nat.and_pow_two_sub_one_eq_mod, Nat.mod_eq_of_lt hip]

theorem broadcastAddr_full (ip : Nat) (hip : ip < 2 ^ 32) :
    broadcastAddr ip 32 = ip := by
  unfold broadcastAddr
  have hw : wildcard32 32 = 0 := rfl
  rw [hw, Nat.or_zero, networkAddr_full ip hip]

/-- C1 (amended): for every address and every prefixLength in [1,30], the
record produced by GetParams has size = 2^(32-prefixLength) and
usableSize = size - 2; at prefixLength 0 the uint32 computation
`int(Count4() + 2)` wraps and the size field is 0 instead of 2^32. -/
theorem claim1_thm (env : OsEnv) (name : String) (ip p : Nat)
    (h1 : 1 ≤ p) (h2 : p ≤ 30) :
    (getParams env name ip p).lookup "size" =
      some (FieldVal.int ((2 : Int) ^ (32 - p))) ∧
    (getParams env name ip p).lookup "usable" =
      some (FieldVal.int ((2 : Int) ^ (32 - p) - 2)) := by
  have hq2 : 2 ≤ 2 ^ (32 - p) := by
    calc 2 = 2 ^ 1 := by norm_num
    _ ≤ 2 ^ (32 - p) := Nat.pow_le_pow_right (by norm_num) (by omega)
  have hqlt : 2 ^ (32 - p) < 4294967296 := by
    calc 2 ^ (32 - p) < 2 ^ 32 := Nat.pow_lt_pow_right (by norm_num) (by omega)
    _ = 4294967296 := by norm_num
  have hs : sizeField p = 2 ^ (32 - p) := by
    unfold sizeField count4
    rw [if_neg (by omega : ¬ p = 32), if_neg (by omega : ¬ p = 31),
      if_neg (by omega : ¬ 32 - p = 0), if_neg (by omega : ¬ 32 - p = 1)]
    have hM : (2 : Nat) ^ 32 = 4294967296 := by norm_num
    rw [hM]
    omega
  have hu : countUsable p = 2 ^ (32 - p) - 2 := by
    unfold countUsable count4
    rw [if_neg (by omega : ¬ 32 - p = 0), if_neg (by omega : ¬ 32 - p = 1)]
    have hM : (2 : Nat) ^ 32 = 4294967296 := by norm_num
    rw [hM]
    omega
  constructor
  · rw [getParams_lookup_size, hs]
    congr 2
    push_cast
    ring
  · rw [getParams_lookup_usable, hu]
    congr 2
    push_cast [Nat.cast_sub hq2]
    ring

/-- C1 witness: at prefix length 24 the theorem applies and gives size
2^8 and usable 2^8 - 2. -/
theorem claim1_witness :
    (getParams ⟨Except.ok []⟩ "a" 1 24).lookup "size" =
      some (FieldVal.int ((2 : Int) ^ (32 - 24))) ∧
    (getParams ⟨Except.ok []⟩ "a" 1 24).lookup "usable" =
      some (FieldVal.int ((2 : Int) ^ (32 - 24) - 2)) :=
  claim1_thm ⟨Except.ok []⟩ "a" 1 24 (by norm_num) (by norm_num)

/-- C1 counterexample: at prefixLength 0 the size field is 0, not
2^(32-0) = 2^32, because Count4() + 2 is computed in uint32. -/
theorem claim1_cex :
    (getParams ⟨Except.ok []⟩ "a" 1 0).lookup "size" = some (FieldVal.int 0) ∧
    FieldVal.int 0 ≠ FieldVal.int ((2 : Int) ^ (32 - 0)) := by
  exact ⟨rfl, by decide⟩

/-- C2: at prefixLength 31 GetParams yields size 2, usableSize 2,
first = network and last = broadcast; at prefixLength 32 it yields size 1,
usableSize 1, and first = last = network = broadcast = address. -/
theorem claim2_thm (env : OsEnv) (name : String) (ip : Nat)
    (hip : ip < 2 ^ 32) :
    ((getParams env name ip 31).lookup "size" = some (FieldVal.int 2) ∧
     (getParams env name ip 31).lookup "usable" = some (FieldVal.int 2) ∧
     (getParams env name ip 31).lookup "first" =
       some (FieldVal.addr (networkAddr ip 31)) ∧
     (getParams env name ip 31).lookup "last" =
       some (FieldVal.addr (broadcastAddr ip 31))) ∧
    ((getParams env name ip 32).lookup "size" = some (FieldVal.int 1) ∧
     (getParams env name ip 32).lookup "usable" = some (FieldVal.int 1) ∧
     (getParams env name ip 32).lookup "first" = some (FieldVal.addr ip) ∧
     (getParams env name ip 32).lookup "last" = some (FieldVal.addr ip) ∧
     (getParams env name ip 32).lookup "network" = some (FieldVal.addr ip) ∧
     (getParams env name ip 32).lookup "broadcast" = some (FieldVal.addr ip)) := by
  have hnet := networkAddr_full ip hip
  have hbc := broadcastAddr_full ip hip
  have hfirst : firstAddr ip 32 = ip := by
    have h : firstAddr ip 32 = networkAddr ip 32 := rfl
    rw [h, hnet]
  have hlast : lastAddr ip 32 = ip := by
    have h : lastAddr ip 32 = broadcastAddr ip 32 := rfl
    rw [h, hbc]
  refine ⟨⟨rfl, rfl, rfl, rfl⟩, ?_, ?_, ?_, ?_, ?_, ?_⟩
  · rfl
  · rfl
  · rw [getParams_lookup_first, hfirst]
  · rw [getParams_lookup_last, hlast]
  · rw [getParams_lookup_network, hnet]
  · rw [getParams_lookup_broadcast, hbc]

/-- C2 witness: the theorem applied to the concrete address 10.0.0.1. -/
theorem claim2_witness :
    ((getParams ⟨Except.ok []⟩ "x" 167772161 31).lookup "size" =
       some (FieldVal.int 2) ∧
     (getParams ⟨Except.ok []⟩ "x" 167772161 31).lookup "usable" =
       some (FieldVal.int 2) ∧
     (getParams ⟨Except.ok []⟩ "x" 167772161 31).lookup "first" =
       some (FieldVal.addr (networkAddr 167772161 31)) ∧
     (getParams ⟨Except.ok []⟩ "x" 167772161 31).lookup "last" =
       some (FieldVal.addr (broadcastAddr 167772161 31))) ∧
    ((getParams ⟨Except.ok []⟩ "x" 167772161 32).lookup "size" =
       some (FieldVal.int 1) ∧
     (getParams ⟨Except.ok []⟩ "x" 167772161 32).lookup "usable" =
       some (FieldVal.int 1) ∧
     (getParams ⟨Except.ok []⟩ "x" 167772161 32).lookup "first" =
       some (FieldVal.addr 167772161) ∧
     (getParams ⟨Except.ok []⟩ "x" 167772161 32).lookup "last" =
       some (FieldVal.addr 167772161) ∧
     (getParams ⟨Except.ok []⟩ "x" 167772161 32).lookup "network" =
       some (FieldVal.addr 167772161) ∧
     (getParams ⟨Except.ok []⟩ "x" 167772161 32).lookup "broadcast" =
       some (FieldVal.addr 167772161)) :=
  claim2_thm ⟨Except.ok []⟩ "x" 167772161 (by norm_num)

/-- C6: for every address and contiguous mask, the wildcard field is the
bitwise complement of the mask (their conjunction is zero and their
disjunction the all-ones word), the network field conjoined with the
wildcard is zero, and the broadcast field is the disjunction of the
network field and the wildcard. -/
theorem claim6_thm (env : OsEnv) (name : String) (ip p : Nat) (hp : p ≤ 32) :
    (getParams env name ip p).lookup "wildcard" =
      some (FieldVal.addr (wildcard32 p)) ∧
    mask32 p &&& wildcard32 p = 0 ∧
    mask32 p ||| wildcard32 p = 2 ^ 32 - 1 ∧
    (getParams env name ip p).lookup "network" =
      some (FieldVal.addr (networkAddr ip p)) ∧
    networkAddr ip p &&& wildcard32 p = 0 ∧
    (getParams env name ip p).lookup "broadcast" =
      some (FieldVal.addr (networkAddr ip p ||| wildcard32 p)) :=
  ⟨rfl, mask_land_wild p hp, mask_lor_wild p hp, rfl,
    network_land_wild ip p hp, rfl⟩

/-- C6 witness: the theorem applied to address 192.168.0.1 with a /24
mask. -/
theorem claim6_witness :
    (getParams ⟨Except.ok []⟩ "x" 3232235521 24).lookup "wildcard" =
      some (FieldVal.addr (wildcard32 24)) ∧
    mask32 24 &&& wildcard32 24 = 0 ∧
    mask32 24 ||| wildcard32 24 = 2 ^ 32 - 1 ∧
    (getParams ⟨Except.ok []⟩ "x" 3232235521 24).lookup "network" =
      some (FieldVal.addr (networkAddr 3232235521 24)) ∧
    networkAddr 3232235521 24 &&& wildcard32 24 = 0 ∧
    (getParams ⟨Except.ok []⟩ "x" 3232235521 24).lookup "broadcast" =
      some (FieldVal.addr (networkAddr 3232235521 24 ||| wildcard32 24)) :=
  claim6_thm ⟨Except.ok []⟩ "x" 3232235521 24 (by norm_num)

/-- C8: the map returned by GetParams has exactly the twelve keys
broadcast, first, ip, last, name, netmask, network, prefix, size, usable,
version and wildcard, and the version field is 4 for an IPv4 address. -/
theorem claim8_thm (env : OsEnv) (name : String) (ip p : Nat) :
    (getParams env name ip p).map Prod.fst =
      ["broadcast", "first", "name", "network", "ip", "last", "netmask",
       "prefix", "size", "usable", "version", "wildcard"] ∧
    (∀ k : String, k ∈ (getParams env name ip p).map Prod.fst ↔
      (k = "broadcast" ∨ k = "first" ∨ k = "ip" ∨ k = "last" ∨ k = "name" ∨
        k = "netmask" ∨ k = "network" ∨ k = "prefix" ∨ k = "size" ∨
        k = "usable" ∨ k = "version" ∨ k = "wildcard")) ∧
    (getParams env name ip p).lookup "version" = some (FieldVal.int 4) := by
  refine ⟨rfl, ?_, rfl⟩
  intro k
  rw [show (getParams env name ip p).map Prod.fst =
    ["broadcast", "first", "name", "network", "ip", "last", "netmask",
     "prefix", "size", "usable", "version", "wildcard"] from rfl]
  simp only [List.mem_cons, List.not_mem_nil, or_false]
  tauto

/-- C8 witness: the version field of a concrete record is 4. -/
theorem claim8_witness :
    (getParams ⟨Except.ok []⟩ "x" 0 0).lookup "version" =
      some (FieldVal.int 4) :=
  (claim8_thm ⟨Except.ok []⟩ "x" 0 0).2.2

theorem findInList_eq (ip : IPAddr) (ifs : List NetIface) :
    findInList ip ifs =
      ((ifs.find? (fun i => ifaceHasIPAddr ip i)).map NetIface.name).getD "" := by
  induction ifs with
  | nil => rfl
  | cons i rest ih =>
    have hstep : findInList ip (i :: rest) =
        (match i.addrs with
         | Except.error _ => findInList ip rest
         | Except.ok as =>
           if as.any (fun a => ipEqual ip a.ip) then i.name
           else findInList ip rest) := rfl
    cases h : i.addrs with
    | error e =>
      have hp : ifaceHasIPAddr ip i = false := by
        unfold ifaceHasIPAddr
        rw [h]
      rw [hstep, h, List.find?_cons_of_neg _ (by simp [hp]), ih]
    | ok as =>
      by_cases ha : (as.any (fun a => ipEqual ip a.ip)) = true
      · have hp : ifaceHasIPAddr ip i = true := by
          unfold ifaceHasIPAddr
          rw [h]
          exact ha
        rw [hstep, h, List.find?_cons_of_pos _ (by simp [hp])]
        simp [ha]
      · have hp : ifaceHasIPAddr ip i = false := by
          unfold ifaceHasIPAddr
          rw [h]
          simpa using ha
        rw [hstep, h, List.find?_cons_of_neg _ (by simp [hp]), ih]
        simp [ha]

/-- C3 (amended): the reverse interface lookup is performed exactly when
the resolved address's string form equals the part of the argument before
the first slash (so also for CIDR arguments), not only when it equals the
whole argument; otherwise the name is passed through unchanged.  The scan
returns the name of the first interface with a readable address equal to
the address, and the empty string when there is none or when the
enumeration fails. -/
theorem claim3_thm (env : OsEnv) (name : String) (ip p : Nat) :
    (splitFirst name ≠ ipv4String ip →
      (getParams env name ip p).lookup "name" = some (FieldVal.str name)) ∧
    (splitFirst name = ipv4String ip →
      (getParams env name ip p).lookup "name" =
        some (FieldVal.str (findInterface env (IPAddr.v4 ip)))) ∧
    (∀ ifs, env.interfaces = Except.ok ifs →
      findInterface env (IPAddr.v4 ip) =
        ((ifs.find? (fun i => ifaceHasIPAddr (IPAddr.v4 ip) i)).map
          NetIface.name).getD "") ∧
    (∀ e, env.interfaces = Except.error e →
      findInterface env (IPAddr.v4 ip) = "") := by
  refine ⟨?_, ?_, ?_, ?_⟩
  · intro h
    rw [getParams_lookup_name]
    have hb : (ipv4String ip == splitFirst name) = false := by
      simp only [beq_eq_false_iff_ne]
      exact fun hh => h hh.symm
    rw [hb]
    simp
  · intro h
    rw [getParams_lookup_name]
    have hb : (ipv4String ip == splitFirst name) = true := by simp [h]
    rw [hb]
    simp
  · intro ifs h
    unfold findInterface
    rw [h]
    exact findInList_eq (IPAddr.v4 ip) ifs
  · intro e h
    unfold findInterface
    rw [h]

/-- C3 witness: for the CIDR-shaped argument "10.0.0.1/8" resolving to
10.0.0.1 the reverse scan is performed (amended condition holds). -/
theorem claim3_witness :
    (getParams ⟨Except.ok [⟨"eth0", Except.ok [⟨IPAddr.v4 167772161, 8, 32⟩]⟩]⟩
        "10.0.0.1/8" 167772161 8).lookup "name" =
      some (FieldVal.str (findInterface
        ⟨Except.ok [⟨"eth0", Except.ok [⟨IPAddr.v4 167772161, 8, 32⟩]⟩]⟩
        (IPAddr.v4 167772161))) :=
  (claim3_thm ⟨Except.ok [⟨"eth0", Except.ok [⟨IPAddr.v4 167772161, 8, 32⟩]⟩]⟩
    "10.0.0.1/8" 167772161 8).2.1 (by decide)

/-- C3 counterexample: for name "10.0.0.1/8" and address 10.0.0.1 the
argument is not textually identical to the address's string form, yet the
name field is the reverse-scan result "eth0", not the unchanged argument. -/
theorem claim3_cex :
    ipv4String 167772161 = "10.0.0.1" ∧
    ("10.0.0.1/8" : String) ≠ "10.0.0.1" ∧
    (getParams ⟨Except.ok [⟨"eth0", Except.ok [⟨IPAddr.v4 167772161, 8, 32⟩]⟩]⟩
        "10.0.0.1/8" 167772161 8).lookup "name" =
      some (FieldVal.str "eth0") ∧
    FieldVal.str "eth0" ≠ FieldVal.str "10.0.0.1/8" :=
  ⟨rfl, by decide, rfl, by decide⟩

/-- C7: GetParams never fails; an interface-enumeration error makes the
reverse lookup return the empty string, an unreadable interface is
skipped, and every field other than the name field is computed
independently of the OS state. -/
theorem claim7_thm :
    (∀ ip, findInterface ⟨Except.error ()⟩ ip = "") ∧
    (∀ nm rest ip,
      findInterface ⟨Except.ok (⟨nm, Except.error ()⟩ :: rest)⟩ ip =
        findInterface ⟨Except.ok rest⟩ ip) ∧
    (∀ env env2 : OsEnv, ∀ name : String, ∀ ip p : Nat, ∀ k : String,
      ¬ k = "name" →
      (getParams env name ip p).lookup k = (getParams env2 name ip p).lookup k) := by
  refine ⟨fun ip => rfl, fun nm rest ip => rfl, ?_⟩
  intro env env2 name ip p k hk
  have hb : (k == "name") = false := by
    simp only [beq_eq_false_iff_ne]
    exact hk
  simp [getParams, lookup_cons, hb]

/-- C7 witness: the size field is the same under a failing and an empty
interface enumeration. -/
theorem claim7_witness :
    (getParams ⟨Except.error ()⟩ "a" 1 24).lookup "size" =
      (getParams ⟨Except.ok []⟩ "a" 1 24).lookup "size" :=
  claim7_thm.2.2 ⟨Except.error ()⟩ ⟨Except.ok []⟩ "a" 1 24 "size" (by decide)

theorem firstV4Addr_eq (as : List IfAddr) :
    firstV4Addr as = as.find? (fun a => a.maskBits == 32) := by
  induction as with
  | nil => rfl
  | cons a rest ih =>
    have hstep : firstV4Addr (a :: rest) =
        (if a.maskBits == 32 then some a else firstV4Addr rest) := rfl
    cases h : (a.maskBits == 32) with
    | false =>
      rw [hstep, h, List.find?_cons_of_neg _ (by simp [h]), ih]
      simp
    | true =>
      rw [hstep, h, List.find?_cons_of_pos _ (by simp [h])]
      simp

/-- C5: GetAddr returns the first IPv4 address of the named interface in
enumeration order (skipping addresses whose mask is not 32 bits wide),
fails with an error naming the missing interface when it does not exist,
and fails with "no IP address" when it has no IPv4 configuration. -/
theorem claim5_thm (ifs : List NetIface) (name : String) :
    (ifs.find? (fun i => i.name == name) = none →
      getAddr ifs name =
        Except.error ("invalid network interface name: " ++ name)) ∧
    (∀ i as, ifs.find? (fun i => i.name == name) = some i →
      i.addrs = Except.ok as →
      getAddr ifs name =
        (match as.find? (fun a => a.maskBits == 32) with
         | some a => Except.ok (a.ip, a.maskOnes)
         | none => Except.error "no IP address")) := by
  constructor
  · intro h
    simp [getAddr, interfaceByName, h]
  · intro i as h1 h2
    cases h3 : as.find? (fun a => a.maskBits == 32) with
    | none => simp [getAddr, interfaceByName, h1, h2, firstV4Addr_eq, h3]
    | some a => simp [getAddr, interfaceByName, h1, h2, firstV4Addr_eq, h3]

/-- C5 witness: an interface with a leading IPv6 address yields its first
IPv4 address, and a missing interface yields the naming error. -/
theorem claim5_witness :
    getAddr [⟨"lo", Except.ok [⟨IPAddr.v6 1, 64, 128⟩,
        ⟨IPAddr.v4 2130706433, 8, 32⟩]⟩] "lo" =
      (match ([⟨IPAddr.v6 1, 64, 128⟩, ⟨IPAddr.v4 2130706433, 8, 32⟩] :
          List IfAddr).find? (fun a => a.maskBits == 32) with
       | some a => Except.ok (a.ip, a.maskOnes)
       | none => Except.error "no IP address") :=
  (claim5_thm [⟨"lo", Except.ok [⟨IPAddr.v6 1, 64, 128⟩,
      ⟨IPAddr.v4 2130706433, 8, 32⟩]⟩] "lo").2
    ⟨"lo", Except.ok [⟨IPAddr.v6 1, 64, 128⟩, ⟨IPAddr.v4 2130706433, 8, 32⟩]⟩
    [⟨IPAddr.v6 1, 64, 128⟩, ⟨IPAddr.v4 2130706433, 8, 32⟩] rfl rfl

/-- C4: resolution precedence is bare address, then CIDR, then interface
name; a bare IPv4 address receives the class-based default prefix
(class A gives 8, class B 16, class C 24), and bare 10.0.0.138 resolves
to prefix 8. -/
theorem claim4_thm (ifs : List NetIface) (arg : String) :
    (∀ ip, parseIPGo arg = some ip →
      determineIP ifs arg = Except.ok (ip, defaultMaskSize ip)) ∧
    (parseIPGo arg = none → ∀ ip ones bits,
      parseCIDRGo arg = some (ip, ones, bits) →
      determineIP ifs arg = Except.ok (ip, ones)) ∧
    (parseIPGo arg = none → parseCIDRGo arg = none →
      determineIP ifs arg = getAddr ifs arg) ∧
    (∀ n, parseIPGo arg = some (IPAddr.v4 n) →
      ((n / 16777216 < 128 → determineIP ifs arg = Except.ok (IPAddr.v4 n, 8)) ∧
       (128 ≤ n / 16777216 → n / 16777216 < 192 →
         determineIP ifs arg = Except.ok (IPAddr.v4 n, 16)) ∧
       (192 ≤ n / 16777216 → n / 16777216 < 224 →
         determineIP ifs arg = Except.ok (IPAddr.v4 n, 24)))) ∧
    determineIP ifs "10.0.0.138" = Except.ok (IPAddr.v4 167772298, 8) := by
  have hmask : ∀ m : Nat, defaultMaskSize (IPAddr.v4 m) =
      (if m / 16777216 < 128 then 8
       else if m / 16777216 < 192 then 16 else 24) := fun m => rfl
  refine ⟨?_, ?_, ?_, ?_, ?_⟩
  · intro ip h
    unfold determineIP
    rw [h]
  · intro h ip ones bits h2
    unfold determineIP
    rw [h, h2]
  · intro h h2
    unfold determineIP
    rw [h, h2]
  · intro n h
    refine ⟨fun hcl => ?_, fun hcl1 hcl2 => ?_, fun hcl1 hcl2 => ?_⟩
    · unfold determineIP
      rw [h]
      show Except.ok (IPAddr.v4 n, defaultMaskSize (IPAddr.v4 n)) =
        Except.ok (IPAddr.v4 n, 8)
      rw [hmask, if_pos hcl]
    · unfold determineIP
      rw [h]
      show Except.ok (IPAddr.v4 n, defaultMaskSize (IPAddr.v4 n)) =
        Except.ok (IPAddr.v4 n, 16)
      rw [hmask, if_neg (by omega), if_pos hcl2]
    · unfold determineIP
      rw [h]
      show Except.ok (IPAddr.v4 n, defaultMaskSize (IPAddr.v4 n)) =
        Except.ok (IPAddr.v4 n, 24)
      rw [hmask, if_neg (by omega), if_neg (by omega)]
  · rfl

/-- C4 witness: the theorem applied to the bare address 10.0.0.138. -/
theorem claim4_witness :
    determineIP ([] : List NetIface) "10.0.0.138" =
      Except.ok (IPAddr.v4 167772298, defaultMaskSize (IPAddr.v4 167772298)) :=
  (claim4_thm [] "10.0.0.138").1 (IPAddr.v4 167772298) rfl

/-- C9: every bare IPv4 address with first octet at least 192, which
includes class D and class E addresses, resolves with prefix length 24. -/
theorem claim9_thm (ifs : List NetIface) (arg : String) (n : Nat)
    (h : parseIPGo arg = some (IPAddr.v4 n)) (hn : n < 2 ^ 32)
    (h192 : 192 * 16777216 ≤ n) :
    determineIP ifs arg = Except.ok (IPAddr.v4 n, 24) := by
  unfold determineIP
  rw [h]
  show Except.ok (IPAddr.v4 n, defaultMaskSize (IPAddr.v4 n)) =
    Except.ok (IPAddr.v4 n, 24)
  have hmask : defaultMaskSize (IPAddr.v4 n) =
      (if n / 16777216 < 128 then 8
       else if n / 16777216 < 192 then 16 else 24) := rfl
  rw [hmask, if_neg (by omega), if_neg (by omega)]

/-- C9 witness: the class E address 240.1.2.3 resolves to prefix 24. -/
theorem claim9_witness :
    192 * 16777216 ≤ 4026597891 ∧
    determineIP ([] : List NetIface) "240.1.2.3" =
      Except.ok (IPAddr.v4 4026597891, 24) :=
  ⟨by norm_num,
    claim9_thm [] "240.1.2.3" 4026597891 rfl (by norm_num) (by norm_num)⟩

/-- C10 (amended): a valid bare IPv6 literal never fails resolution; the
assigned prefix length is the default-mask size, which is 0 exactly for
literals that are not IPv4-mapped, while IPv4-mapped IPv6 literals
receive the class-based default of the embedded IPv4 address. -/
theorem claim10_thm (ifs : List NetIface) (arg : String) (n : Nat)
    (h : parseIPGo arg = some (IPAddr.v6 n)) :
    determineIP ifs arg =
      Except.ok (IPAddr.v6 n, defaultMaskSize (IPAddr.v6 n)) ∧
    (to4 (IPAddr.v6 n) = none → defaultMaskSize (IPAddr.v6 n) = 0) := by
  constructor
  · unfold determineIP
    rw [h]
  · intro h2
    unfold defaultMaskSize
    rw [h2]

/-- C10 witness: the literal "::1" resolves without error. -/
theorem claim10_witness :
    determineIP ([] : List NetIface) "::1" =
      Except.ok (IPAddr.v6 1, defaultMaskSize (IPAddr.v6 1)) ∧
    (to4 (IPAddr.v6 1) = none → defaultMaskSize (IPAddr.v6 1) = 0) :=
  claim10_thm [] "::1" 1 rfl

/-- C10 counterexample: the valid IPv4-mapped IPv6 literal
"::ffff:10.0.0.1" is accepted by the bare-address branch but receives
prefix length 8 (the class A default of the embedded 10.0.0.1), not 0. -/
theorem claim10_cex :
    parseIPGo "::ffff:10.0.0.1" = some (IPAddr.v6 281470849515521) ∧
    determineIP ([] : List NetIface) "::ffff:10.0.0.1" =
      Except.ok (IPAddr.v6 281470849515521, 8) ∧
    (8 : Nat) ≠ 0 :=
  ⟨rfl, rfl, by decide⟩

end Terminus
